import Mathlib

/-!
# Verification of the Task-Management API's assignment core

Shallow embedding of the repository's controllers over an explicit
database state (`DB` holds the three MongoDB collections as lists of
documents in insertion order).  Each controller function from the source
becomes a pure Lean function from the request inputs and the current
`DB` to a typed response plus the successor `DB`.  Timestamps
(`new Date()`) are threaded as an explicit `now : Nat` clock; the
`_id` generated by `insertOne` is threaded as an explicit fresh-id
argument.  MongoDB ObjectId values are modelled as strings, with
`isValidObjectId` standing for the `new mongodb.ObjectId(s)`
constructor's acceptance of well-formed ids (24 hex characters); a
rejected id throws, which the embedding models by taking the
corresponding catch branch.

The persistence gateway (`connectDB` with `initializeCollections`,
staged in src/config/swagger.js:38-164) bootstraps the collections
with their store-level constraints, and these are part of the model:
a unique index on users.email, a `$jsonSchema` validator on users
whose `role` must lie in {admin, contributor, viewer}, and a unique
index on the (task_id, user_id) pair of `task_assignments`.  A write
that violates one of these throws at the store (E11000 / document
validation failure) into the controller's generic catch, i.e. a 500
response.  The `collMod` for the tasks collection never installs its
validator: its `$jsonSchema` uses the unsupported `default` keyword,
so that command fails after the collection is created and later
requests skip the branch — the tasks collection ends up with no
validator, and task writes are modelled accordingly without one.
The remaining validator clauses (bsonType of fields, required keys)
are enforced by the embedding's types by construction.
-/

namespace TaskAPI

/-- A document of the `users` collection, as built by `createUser`
(src/controller/user.js): `{ name, email, phone_number, role,
assigned_tasks, created_at }` plus the driver-generated `_id`. -/
structure User where
  id : String
  name : String
  email : String
  phone_number : String
  role : String
  assigned_tasks : List String
  created_at : Nat
  deriving Repr, DecidableEq

/-- A document of the `tasks` collection, as built by `createTask`
(src/unnamed/part_002): `{ title, description, status, priority,
created_by, created_at, assigned_users }` plus the generated `_id`. -/
structure Task where
  id : String
  title : String
  description : String
  status : String
  priority : String
  created_by : Option String
  created_at : Nat
  assigned_users : List String
  deriving Repr, DecidableEq

/-- A document of the `task_assignments` join collection, as built by
`assignUserToTask` (src/unnamed/part_002): `{ task_id, user_id,
assigned_at }`. -/
structure Assignment where
  task_id : String
  user_id : String
  assigned_at : Nat
  deriving Repr, DecidableEq

/-- The persistent state: the three collections, each a list of
documents in insertion (natural) order. -/
structure DB where
  users : List User
  tasks : List Task
  task_assignments : List Assignment
  deriving Repr, DecidableEq

/-- Acceptance of `new mongodb.ObjectId(s)` for a string argument:
24 hexadecimal characters.  A string rejected by this check makes the
constructor throw `BSONTypeError`, which the controllers observe in
their catch blocks. -/
def isValidObjectId (s : String) : Bool :=
  s.length = 24 && s.toList.all (fun c => c.isDigit
    || ('a' ≤ c && c ≤ 'f') || ('A' ≤ c && c ≤ 'F'))

/-- `$addToSet` with `$each`: append, in order, each element of the
batch that is not already present (duplicates inside the batch also
collapse). -/
def addToSetEach (base : List String) (batch : List String) : List String :=
  batch.foldl (fun acc x => if x ∈ acc then acc else acc ++ [x]) base

/-- Truthiness of an optional string request field (`!field` in JS is
true when the field is absent or the empty string). -/
def truthy : Option String → Bool
  | none => false
  | some s => s ≠ ""

/-- The role enumeration enforced by the users collection's
`$jsonSchema` validator, installed by `initializeCollections`
(src/config/swagger.js:53-75). -/
def roleAllowed (r : String) : Bool :=
  r = "admin" || r = "contributor" || r = "viewer"

/-- Ordered `insertMany` into `task_assignments` under the unique
(task_id, user_id) index created by `initializeCollections`
(src/config/swagger.js:121-122): documents are inserted in order
until one duplicates an already-stored pair, which raises E11000 —
the call then fails, but the documents inserted before the failure
stay committed (no rollback).  Returns the resulting collection and
whether the call succeeded. -/
def insertManyAssignments (acc : List Assignment) :
    List Assignment → List Assignment × Bool
  | [] => (acc, true)
  | a :: rest =>
    if acc.any (fun b => b.task_id = a.task_id ∧ b.user_id = a.user_id) then
      (acc, false)
    else insertManyAssignments (acc ++ [a]) rest

/-- `updateOne` with a filter: apply `f` to the first document matching
`p`, leave the rest unchanged. -/
def updateFirst (p : α → Bool) (f : α → α) : List α → List α
  | [] => []
  | x :: xs => if p x then f x :: xs else x :: updateFirst p f xs

/-! ## User controller (src/controller/user.js) -/

/-- The response branches of `createUser`. -/
inductive CreateUserResult where
  | missingFields (message : String) (required : List String)
  | emailTaken (message : String)
  | created (message : String) (id : String) (user : User)
  deriving Repr, DecidableEq

/-- HTTP status attached to each `createUser` branch. -/
def CreateUserResult.status : CreateUserResult → Nat
  | .missingFields _ _ => 400
  | .emailTaken _ => 400
  | .created _ _ _ => 201

/-- The response branches of `getUserById`.  The catch block of
`getUserById` has no `BSONTypeError` branch, so a malformed id lands
in the generic 500 handler. -/
inductive GetUserResult where
  | ok (user : User)
  | notFound (message : String)
  | serverError (message : String)
  deriving Repr, DecidableEq

/-- HTTP status attached to each `getUserById` branch. -/
def GetUserResult.status : GetUserResult → Nat
  | .ok _ => 200
  | .notFound _ => 404
  | .serverError _ => 500

/-- `getUserById` (src/controller/user.js:187-208): the ObjectId
constructor runs first; on a malformed id it throws and the generic
catch answers 500 "Error fetching user" (no document is read).
Otherwise find the user by `_id`, 404 when absent. -/
def getUserById (db : DB) (idStr : String) : GetUserResult :=
  if ¬ isValidObjectId idStr then .serverError "Error fetching user"
  else match db.users.find? (fun u => u.id = idStr) with
    | none => .notFound "User not found"
    | some u => .ok u

/-- Request body of `PUT /api/users/{id}`: `updateUser` spreads the
whole body into `$set` after deleting `_id`, so every recognised field
is an optional overwrite; `bodyId` stands for a `_id` field in the
body, which is always discarded. -/
structure UpdateUserBody where
  name : Option String
  email : Option String
  phone_number : Option String
  role : Option String
  assigned_tasks : Option (List String)
  created_at : Option Nat
  bodyId : Option String
  deriving Repr, DecidableEq

/-- `$set` of the body onto a stored user: every present field is
written verbatim; `_id` was deleted from the update document so the
stored id is kept. -/
def applyUserUpdate (u : User) (b : UpdateUserBody) : User :=
  { id := u.id
    name := b.name.getD u.name
    email := b.email.getD u.email
    phone_number := b.phone_number.getD u.phone_number
    role := b.role.getD u.role
    assigned_tasks := b.assigned_tasks.getD u.assigned_tasks
    created_at := b.created_at.getD u.created_at }

/-- The response branches of `updateUser` / `deleteUser`. -/
inductive UserWriteResult where
  | ok (message : String)
  | notFound (message : String)
  | serverError (message : String)
  deriving Repr, DecidableEq

/-- HTTP status attached to each `updateUser`/`deleteUser` branch. -/
def UserWriteResult.status : UserWriteResult → Nat
  | .ok _ => 200
  | .notFound _ => 404
  | .serverError _ => 500

/-- `updateUser` (src/controller/user.js:258-289): malformed id throws
before any store access and the generic catch answers 500 "Error
updating user"; otherwise `updateOne({_id}, {$set: body minus _id})`,
404 when no document matched.  The controller itself performs no
field validation, but the store does: the users collection carries
the `$jsonSchema` role-enum validator and the unique email index
installed by `initializeCollections` (src/config/swagger.js:47-75),
so a `$set` whose resulting document has an out-of-enumeration role,
or an email equal to another stored user's, throws (document
validation failure / E11000) into the same generic catch — 500,
nothing persisted. -/
def updateUser (db : DB) (idStr : String) (body : UpdateUserBody) :
    UserWriteResult × DB :=
  if ¬ isValidObjectId idStr then (.serverError "Error updating user", db)
  else match db.users.find? (fun u => u.id = idStr) with
  | none => (.notFound "User not found", db)
  | some u =>
    if ¬ roleAllowed (applyUserUpdate u body).role then
      (.serverError "Error updating user", db)
    else if db.users.any
        (fun v => v.id ≠ u.id ∧ v.email = (applyUserUpdate u body).email) then
      (.serverError "Error updating user", db)
    else
      let users' := updateFirst (fun v => v.id = idStr)
        (fun v => applyUserUpdate v body) db.users
      (.ok "User updated successfully", { db with users := users' })

/-- `deleteUser` (src/controller/user.js:292-317): malformed id hits
the generic 500 catch; otherwise `deleteOne({_id})`, 404 when nothing
was deleted. -/
def deleteUser (db : DB) (idStr : String) : UserWriteResult × DB :=
  if ¬ isValidObjectId idStr then (.serverError "Error deleting user", db)
  else if db.users.any (fun u => u.id = idStr) then
    (.ok "User deleted successfully",
     { db with users := db.users.eraseP (fun u => u.id = idStr) })
  else (.notFound "User not found", db)

/-! ## Task controller (src/unnamed/part_002)

This is the task-controller version whose exports (`getTaskById`,
`assignUserToTask`, `removeUserFromTask`, `getTaskAssignees`, ...)
match exactly what src/routes/task.js imports, so it is the controller
the routes are wired against. -/

/-- Request body of `POST /api/tasks` as destructured by `createTask`
(src/unnamed/part_002:332): `{ title, description, priority =
'medium', status = 'pending' }`.  A supplied `due_date` is never read
by this function, so it is not modelled. -/
structure CreateTaskBody where
  title : Option String
  description : Option String
  status : Option String
  priority : Option String
  deriving Repr, DecidableEq

/-- The response branches of `createTask`. -/
inductive CreateTaskResult where
  | missingFields (message : String)
  | created (task : Task)
  deriving Repr, DecidableEq

/-- HTTP status attached to each `createTask` branch. -/
def CreateTaskResult.status : CreateTaskResult → Nat
  | .missingFields _ => 400
  | .created _ => 201

/-- `createTask` (src/unnamed/part_002:329-371): require truthy title
and description; default `status` to `pending` and `priority` to
`medium` when the fields are absent (destructuring defaults); insert
the document with an empty `assigned_users` list.  No check of
`status` or `priority` against their enumerations is performed. -/
def createTask (db : DB) (body : CreateTaskBody) (creator : Option String)
    (newId : String) (now : Nat) : CreateTaskResult × DB :=
  if ¬ (truthy body.title && truthy body.description) then
    (.missingFields "Title and description are required", db)
  else
    let task : Task :=
      { id := newId
        title := body.title.getD ""
        description := body.description.getD ""
        status := body.status.getD "pending"
        priority := body.priority.getD "medium"
        created_by := creator
        created_at := now
        assigned_users := [] }
    (.created task, { db with tasks := db.tasks ++ [task] })

/-- The response branches of `assignUserToTask`. -/
inductive AssignResult where
  | serverError (message : String)
  | emailsRequired (message : String)
  | taskNotFound (message : String)
  | usersNotFound (message : String) (foundUsers : List String)
      (missingUsers : List String)
  | ok (message : String) (assignedUsers : List (String × String))
  deriving Repr, DecidableEq

/-- HTTP status attached to each `assignUserToTask` branch. -/
def AssignResult.status : AssignResult → Nat
  | .serverError _ => 500
  | .emailsRequired _ => 400
  | .taskNotFound _ => 404
  | .usersNotFound _ _ _ => 400
  | .ok _ _ => 200

/-- `assignUserToTask` (src/unnamed/part_002:452-510).  In source
order: parse the task id (a malformed one throws into the generic 500
catch); 400 unless `userEmails` is a non-empty array; 404 unless the
task exists; bulk-resolve the users by email; when the resolved count
differs from the requested count answer 400 listing `foundUsers` and
`missingUsers` with no write; otherwise `insertMany` one join record
per resolved user stamped `now` — the controller never checks for an
already-existing record for a pair, so re-assigning an existing pair
reaches the store, where the unique (task_id, user_id) index raises
E11000; that throw lands in the generic catch (500 "Error assigning
users to task") with the records inserted before the failure kept
and the two `$addToSet` mirror updates never executed.  On a
successful `insertMany`, `$addToSet` the user ids into the task's
`assigned_users` and the task id into every resolved user's
`assigned_tasks`. -/
def assignUserToTask (db : DB) (taskIdStr : String)
    (userEmails : Option (List String)) (now : Nat) : AssignResult × DB :=
  if ¬ isValidObjectId taskIdStr then
    (.serverError "Error assigning users to task", db)
  else match userEmails with
  | none => (.emailsRequired "User emails array is required", db)
  | some emails =>
    if emails.isEmpty then (.emailsRequired "User emails array is required", db)
    else match db.tasks.find? (fun t => t.id = taskIdStr) with
    | none => (.taskNotFound "Task not found", db)
    | some _ =>
      let users := db.users.filter (fun u => emails.any (fun e => u.email = e))
      if users.length ≠ emails.length then
        (.usersNotFound "One or more users not found"
          (users.map (fun u => u.email))
          (emails.filter (fun e => ¬ users.any (fun u => u.email = e))), db)
      else
        let userIds := users.map (fun u => u.id)
        let assignments := userIds.map
          (fun uid => Assignment.mk taskIdStr uid now)
        let inserted := insertManyAssignments db.task_assignments assignments
        if inserted.2 then
          let tasks' := updateFirst (fun t => t.id = taskIdStr)
            (fun t => { t with assigned_users := addToSetEach t.assigned_users userIds })
            db.tasks
          let users' := db.users.map (fun u =>
            if userIds.any (fun i => u.id = i) then
              { u with assigned_tasks := addToSetEach u.assigned_tasks [taskIdStr] }
            else u)
          (.ok "Users assigned to task successfully"
            (users.map (fun u => (u.email, u.name))),
           { users := users'
             tasks := tasks'
             task_assignments := inserted.1 })
        else
          (.serverError "Error assigning users to task",
           { db with task_assignments := inserted.1 })

/-- One row of the `getTaskAssignees` aggregation output:
`{ userId, name, email, assigned_at }`. -/
structure AssigneeEntry where
  userId : String
  name : String
  email : String
  assigned_at : Nat
  deriving Repr, DecidableEq

/-- The response branches of `getTaskAssignees`. -/
inductive AssigneesResult where
  | invalidId (message : String)
  | notFound (message : String)
  | ok (taskId : String) (taskTitle : String) (assigneeCount : Nat)
      (assignees : List AssigneeEntry)
  deriving Repr, DecidableEq

/-- HTTP status attached to each `getTaskAssignees` branch. -/
def AssigneesResult.status : AssigneesResult → Nat
  | .invalidId _ => 400
  | .notFound _ => 404
  | .ok _ _ _ _ => 200

/-- `getTaskAssignees` (src/unnamed/part_002:512-574): 400 "Invalid
task ID format" on a malformed id (this catch block does have the
`BSONTypeError` branch); 404 when the task is absent; otherwise
aggregate the join rows for the task, `$lookup` each row's user by
`_id` (`_id` is unique, so the first match is the match) and `$unwind`
(a row whose user no longer exists is dropped), projecting
`{ userId, name, email, assigned_at }`; answer with the task title,
the row count and the rows. -/
def getTaskAssignees (db : DB) (taskIdStr : String) : AssigneesResult :=
  if ¬ isValidObjectId taskIdStr then .invalidId "Invalid task ID format"
  else match db.tasks.find? (fun t => t.id = taskIdStr) with
  | none => .notFound "Task not found"
  | some task =>
    let rows := (db.task_assignments.filter (fun a => a.task_id = taskIdStr)).filterMap
      (fun a => (db.users.find? (fun u => u.id = a.user_id)).map
        (fun u => AssigneeEntry.mk u.id u.name u.email a.assigned_at))
    .ok taskIdStr task.title rows.length rows

/-- The response branches of `removeUserFromTask`. -/
inductive RemoveResult where
  | invalidId (message : String)
  | taskNotFound (message : String)
  | userNotFound (message : String)
  | notAssigned (message : String)
  | ok (message : String) (taskId : String) (userEmail : String)
  deriving Repr, DecidableEq

/-- HTTP status attached to each `removeUserFromTask` branch. -/
def RemoveResult.status : RemoveResult → Nat
  | .invalidId _ => 400
  | .taskNotFound _ => 404
  | .userNotFound _ => 404
  | .notAssigned _ => 404
  | .ok _ _ _ => 200

/-- `removeUserFromTask` (src/unnamed/part_002:576-639): 400 "Invalid
task ID format" on a malformed task id; 404 "Task not found" when the
task is absent; resolve the user by email, 404 "User not found" when
none matches; `deleteOne` the join record for (task, user) — deleting
the first matching record when one exists; when nothing was deleted
answer 404 "User is not assigned to this task".  Only the join
collection is touched: the embedded `assigned_users` /
`assigned_tasks` mirrors are not updated. -/
def removeUserFromTask (db : DB) (taskIdStr : String) (email : String) :
    RemoveResult × DB :=
  if ¬ isValidObjectId taskIdStr then
    (.invalidId "Invalid task ID format", db)
  else match db.tasks.find? (fun t => t.id = taskIdStr) with
  | none => (.taskNotFound "Task not found", db)
  | some _ =>
    match db.users.find? (fun u => u.email = email) with
    | none => (.userNotFound "User not found", db)
    | some user =>
      if db.task_assignments.any
          (fun a => a.task_id = taskIdStr ∧ a.user_id = user.id) then
        let rest := db.task_assignments.eraseP
          (fun a => a.task_id = taskIdStr ∧ a.user_id = user.id)
        (.ok "User removed from task successfully" taskIdStr email,
         { db with task_assignments := rest })
      else (.notAssigned "User is not assigned to this task", db)

/-- `createTask` of the sibling controller version
(src/controller/task.js:455-505): a different body shape (`taskName`,
`taskDescription`, `status`, `category`); it validates `status`
against its enumeration but reads no `priority` field at all, and
defaults `category` to `general`.  Embedded to document that neither
controller version validates a task priority. -/
def createTask_v2 (taskName taskDescription status category : Option String)
    : Option (String × String) :=
  if ¬ (truthy taskName && truthy taskDescription) then none
  else if truthy status && ¬ (status.getD "" = "pending"
      || status.getD "" = "in-progress" || status.getD "" = "completed") then
    none
  else
    some ((if truthy status then status.getD "" else "pending"),
          (if truthy category then category.getD "" else "general"))

/-! ## Concrete fixtures used by witnesses and counterexamples -/

/-- A well-formed task ObjectId. -/
def tid0 : String := "aaaaaaaaaaaaaaaaaaaaaaaa"

/-- A well-formed user ObjectId. -/
def uid0 : String := "bbbbbbbbbbbbbbbbbbbbbbbb"

/-- A registered user, as created by `createUser`. -/
def annUser : User :=
  { id := uid0, name := "Ann", email := "ann@x.com", phone_number := "555",
    role := "contributor", assigned_tasks := [], created_at := 0 }

/-- An existing task, as created by `createTask`. -/
def shipTask : Task :=
  { id := tid0, title := "Ship release", description := "cut v1",
    status := "pending", priority := "medium", created_by := none,
    created_at := 0, assigned_users := [] }

/-- A database with one user, one task and no assignments. -/
def db0 : DB := { users := [annUser], tasks := [shipTask], task_assignments := [] }

/-- A second registered user, for exercising duplicate-email updates. -/
def bobUser : User :=
  { id := "cccccccccccccccccccccccc", name := "Bob", email := "bob@x.com",
    phone_number := "777", role := "viewer", assigned_tasks := [],
    created_at := 0 }

/-- A database holding two users. -/
def db2u : DB := { users := [annUser, bobUser], tasks := [shipTask],
                   task_assignments := [] }

/-- A join record pairing `shipTask` with `annUser`. -/
def rec0 : Assignment := { task_id := tid0, user_id := uid0, assigned_at := 5 }

/-- A database where Ann is assigned to the ship task, with the
embedded mirrors populated as `assignUserToTask` leaves them. -/
def dbAssigned : DB :=
  { users := [{ annUser with assigned_tasks := [tid0] }],
    tasks := [{ shipTask with assigned_users := [uid0] }],
    task_assignments := [rec0] }

/-! ## Helper lemmas about the list-level collection operations -/

theorem find?_eq_of_mem_of_unique {α : Type} {p : α → Bool} {l : List α} {a : α}
    (ha : a ∈ l) (hpa : p a = true)
    (huniq : ∀ b ∈ l, p b = true → b = a) :
    l.find? p = some a := by
  induction l with
  | nil => cases ha
  | cons x xs ih =>
    rw [List.find?_cons]
    cases hx : p x with
    | true => exact congrArg some (huniq x (List.mem_cons_self x xs) hx)
    | false =>
      have hax : a ≠ x := by
        intro h
        rw [h, hx] at hpa
        cases hpa
      have ha' : a ∈ xs := by
        rcases List.mem_cons.mp ha with h | h
        · exact absurd h hax
        · exact h
      exact ih ha' (fun b hb hpb => huniq b (List.mem_cons_of_mem _ hb) hpb)

theorem eq_of_map_nodup_of_key_eq {α β : Type} {key : α → β} {l : List α}
    (h : (l.map key).Nodup) :
    ∀ x ∈ l, ∀ y ∈ l, key x = key y → x = y := by
  induction l with
  | nil => intro x hx; cases hx
  | cons z zs ih =>
    rw [List.map_cons, List.nodup_cons] at h
    intro x hx y hy hk
    rcases List.mem_cons.mp hx with rfl | hx' <;>
      rcases List.mem_cons.mp hy with rfl | hy'
    · rfl
    · exact absurd (hk ▸ List.mem_map_of_mem key hy') h.1
    · exact absurd (hk ▸ List.mem_map_of_mem key hx') h.1
    · exact ih h.2 x hx' y hy' hk

theorem filter_eq_singleton_of_key {α β : Type} [DecidableEq β] {key : α → β}
    {l : List α} {a : α} {b : β} (ha : a ∈ l) (hab : key a = b)
    (hnodup : (l.map key).Nodup) :
    l.filter (fun x => key x = b) = [a] := by
  induction l with
  | nil => cases ha
  | cons z zs ih =>
    rw [List.map_cons, List.nodup_cons] at hnodup
    rcases List.mem_cons.mp ha with rfl | ha'
    · rw [List.filter_cons_of_pos (by simpa using hab)]
      have : zs.filter (fun x => key x = b) = [] := by
        rw [List.filter_eq_nil_iff]
        intro c hc hcb
        apply hnodup.1
        have hkey : key c = key a := by
          have hcb' := of_decide_eq_true hcb
          rw [hcb', hab]
        exact hkey ▸ List.mem_map_of_mem key hc
      rw [this]
    · have hza : key z ≠ b := by
        intro h
        exact hnodup.1 (h ▸ hab ▸ List.mem_map_of_mem key ha')
      rw [List.filter_cons_of_neg (by simpa using hza)]
      exact ih ha' hnodup.2

theorem updateFirst_eq_map_of_nodup {α β : Type} [DecidableEq β] {key : α → β}
    {f : α → α} {b : β} {l : List α} (h : (l.map key).Nodup) :
    updateFirst (fun x => key x = b) f l
      = l.map (fun x => if key x = b then f x else x) := by
  induction l with
  | nil => rfl
  | cons z zs ih =>
    rw [List.map_cons, List.nodup_cons] at h
    by_cases hz : key z = b
    · rw [updateFirst, if_pos (by simpa using hz), List.map_cons, if_pos hz]
      have : zs.map (fun x => if key x = b then f x else x) = zs.map id := by
        apply List.map_congr_left
        intro c hc
        have : key c ≠ b := by
          intro hcb
          exact h.1 (hz ▸ hcb ▸ List.mem_map_of_mem key hc)
        simp [this]
      rw [this, List.map_id]
    · rw [updateFirst, if_neg (by simpa using hz), List.map_cons, if_neg hz,
        ih h.2]

theorem toFinset_card_lt_of_not_nodup {α : Type} [DecidableEq α] {l : List α}
    (h : ¬ l.Nodup) : l.toFinset.card < l.length := by
  refine lt_of_le_of_ne l.toFinset_card_le (fun he => h ?_)
  have := Multiset.toFinset_card_eq_card_iff_nodup.mp (by simpa using he)
  simpa using this

/-! ## Evaluation lemma for a single-email assign -/

/-- Running `assignUserToTask` on one registered email whose pair has
no existing join record: the bulk lookup resolves exactly the one
user carrying that email, the count check passes, the `insertMany`
commits one join record stamped `now` (no conflict with the unique
pair index), the user's id is `$addToSet`-ed into the task's
`assigned_users` and the task id into the user's `assigned_tasks`. -/
theorem assign_single_spec (db : DB) (tid e : String) (u : User) (n : Nat)
    (hvalid : isValidObjectId tid = true)
    (hT : ∃ T ∈ db.tasks, T.id = tid)
    (hu : u ∈ db.users) (hue : u.email = e)
    (hnodup : (db.users.map (fun x => x.email)).Nodup)
    (htasks : (db.tasks.map (fun t => t.id)).Nodup)
    (hfresh : ∀ a ∈ db.task_assignments,
      ¬ (a.task_id = tid ∧ a.user_id = u.id)) :
    assignUserToTask db tid (some [e]) n =
      (.ok "Users assigned to task successfully" [(e, u.name)],
       { users := db.users.map (fun x =>
           if x.id = u.id then
             { x with assigned_tasks := addToSetEach x.assigned_tasks [tid] }
           else x)
         tasks := db.tasks.map (fun t =>
           if t.id = tid then
             { t with assigned_users := addToSetEach t.assigned_users [u.id] }
           else t)
         task_assignments := db.task_assignments ++ [⟨tid, u.id, n⟩] }) := by
  obtain ⟨T, hTmem, hTid⟩ := hT
  have hsome : (db.tasks.find? (fun t => t.id = tid)).isSome := by
    rw [List.find?_isSome]
    exact ⟨T, hTmem, by simpa using hTid⟩
  obtain ⟨T', hfind⟩ := Option.isSome_iff_exists.mp hsome
  have hfilter : db.users.filter (fun x => [e].any (fun y => x.email = y)) = [u] := by
    have hpred : (fun x : User => [e].any (fun y => x.email = y))
        = (fun x : User => decide (x.email = e)) := by
      funext x
      simp
    rw [hpred]
    exact filter_eq_singleton_of_key hu hue hnodup
  have hupd : updateFirst (fun t : Task => t.id = tid)
      (fun t => { t with assigned_users := addToSetEach t.assigned_users [u.id] })
      db.tasks
      = db.tasks.map (fun t =>
          if t.id = tid then
            { t with assigned_users := addToSetEach t.assigned_users [u.id] }
          else t) :=
    updateFirst_eq_map_of_nodup htasks
  have hins : insertManyAssignments db.task_assignments
      [(⟨tid, u.id, n⟩ : Assignment)]
      = (db.task_assignments ++ [⟨tid, u.id, n⟩], true) := by
    simp only [insertManyAssignments]
    split
    · next hcond =>
      exfalso
      rw [List.any_eq_true] at hcond
      obtain ⟨a, ha, hpa⟩ := hcond
      exact hfresh a ha (of_decide_eq_true hpa)
    · rfl
  simp only [assignUserToTask, hvalid, not_true_eq_false, if_false, hfind,
    List.isEmpty_cons, hfilter, List.length_cons, List.length_nil,
    List.map_cons, List.map_nil, hins, hupd, hue]
  simp [Prod.ext_iff, DB.mk.injEq]

/-- Running `assignUserToTask` on one registered email whose pair is
already present in the join collection: the controller never checks
for the existing record, so the `insertMany` reaches the store and
the unique (task_id, user_id) index raises E11000 — the generic
catch answers 500 "Error assigning users to task", no record is
inserted and the two mirror updates never run, so the whole database
is returned unchanged. -/
theorem assign_single_conflict_spec (db : DB) (tid e : String) (u : User)
    (n : Nat)
    (hvalid : isValidObjectId tid = true)
    (hT : ∃ T ∈ db.tasks, T.id = tid)
    (hu : u ∈ db.users) (hue : u.email = e)
    (hnodup : (db.users.map (fun x => x.email)).Nodup)
    (hconf : ∃ a ∈ db.task_assignments, a.task_id = tid ∧ a.user_id = u.id) :
    assignUserToTask db tid (some [e]) n =
      (.serverError "Error assigning users to task", db) := by
  obtain ⟨T, hTmem, hTid⟩ := hT
  have hsome : (db.tasks.find? (fun t => t.id = tid)).isSome := by
    rw [List.find?_isSome]
    exact ⟨T, hTmem, by simpa using hTid⟩
  obtain ⟨T', hfind⟩ := Option.isSome_iff_exists.mp hsome
  have hfilter : db.users.filter (fun x => [e].any (fun y => x.email = y)) = [u] := by
    have hpred : (fun x : User => [e].any (fun y => x.email = y))
        = (fun x : User => decide (x.email = e)) := by
      funext x
      simp
    rw [hpred]
    exact filter_eq_singleton_of_key hu hue hnodup
  have hins : insertManyAssignments db.task_assignments
      [(⟨tid, u.id, n⟩ : Assignment)]
      = (db.task_assignments, false) := by
    simp only [insertManyAssignments]
    split
    · rfl
    · next hcond =>
      exfalso
      apply hcond
      rw [List.any_eq_true]
      obtain ⟨a, ha, hpa⟩ := hconf
      exact ⟨a, ha, by simpa using hpa⟩
  simp only [assignUserToTask, hvalid, not_true_eq_false, if_false, hfind,
    List.isEmpty_cons, hfilter, List.length_cons, List.length_nil,
    List.map_cons, List.map_nil, hins]
  simp

/-! ## Claim C7 — malformed user ID -/

/-- C7 counterexample: on a malformed user id ("xyz" is not a valid
ObjectId) `getUserById`, `updateUser` and `deleteUser` all answer a
500-status response ("Error fetching/updating/deleting user"), not the
400-equivalent ValidationError the claim states. -/
theorem C7_counterexample :
    (getUserById db0 "xyz").status = 500 ∧
    (updateUser db0 "xyz" ⟨none, none, none, none, none, none, none⟩).1.status = 500 ∧
    (deleteUser db0 "xyz").1.status = 500 ∧
    (getUserById db0 "xyz").status ≠ 400 := by decide

/-- C7 amended: for every get/update/delete request on the users
collection whose ID path parameter is not a well-formed document ID,
the ObjectId constructor throws into the generic catch handler, which
answers a 500-equivalent server-error response ("Error fetching user" /
"Error updating user" / "Error deleting user") — not a 400-equivalent
ValidationError — and no document is read, modified, or deleted (the
database is returned unchanged). -/
theorem C7_amended (db : DB) (idStr : String) (body : UpdateUserBody)
    (h : isValidObjectId idStr = false) :
    getUserById db idStr = .serverError "Error fetching user" ∧
    (getUserById db idStr).status = 500 ∧
    updateUser db idStr body = (.serverError "Error updating user", db) ∧
    deleteUser db idStr = (.serverError "Error deleting user", db) := by
  unfold getUserById updateUser deleteUser
  simp [h, GetUserResult.status]

/-- C7 amended, witnessed at the malformed id "xyz". -/
theorem C7_amended_witness :
    getUserById db0 "xyz" = .serverError "Error fetching user" ∧
    (getUserById db0 "xyz").status = 500 ∧
    updateUser db0 "xyz" ⟨none, none, none, none, none, none, none⟩ =
      (.serverError "Error updating user", db0) ∧
    deleteUser db0 "xyz" = (.serverError "Error deleting user", db0) :=
  C7_amended db0 "xyz" ⟨none, none, none, none, none, none, none⟩ (by decide)

/-! ## Claim C8 — duplicate email on create -/

/-- C10 counterexample: updating Ann with the out-of-enumeration role
"banana", or with Bob's email, is NOT accepted and persisted — the
users collection's schema validator / unique email index installed by
the persistence gateway make the `$set` throw, so the request answers
500 "Error updating user" and the database is unchanged. -/
theorem C10_counterexample :
    updateUser db2u uid0 ⟨none, none, none, some "banana", none, none, none⟩ =
      (.serverError "Error updating user", db2u) ∧
    updateUser db2u uid0
        ⟨none, some "bob@x.com", none, none, none, none, none⟩ =
      (.serverError "Error updating user", db2u) ∧
    (UserWriteResult.serverError "Error updating user").status = 500 ∧
    (500 : Nat) ≠ 200 := by decide

/-- C10 amended: `updateUser` itself validates nothing — every field
present in the body except `_id` is passed verbatim to `$set` — but
the store constraints installed by the persistence gateway apply: a
resulting document whose role lies outside {admin, contributor,
viewer} (schema validator), or whose email equals another stored
user's (unique index), makes the write throw and the request answers
500 with nothing persisted.  Any update satisfying the store
constraints — for example a direct overwrite of the `assigned_tasks`
mirror — is persisted exactly as supplied, and only `_id` is
immutable (the body's `_id` is deleted before the `$set`). -/
theorem C10_amended (db : DB) (idStr : String)
    (body : UpdateUserBody) (u : User)
    (hvalid : isValidObjectId idStr = true)
    (hu : u ∈ db.users) (hid : u.id = idStr)
    (hnodup : (db.users.map (fun x => x.id)).Nodup) :
    (roleAllowed (applyUserUpdate u body).role = false →
       updateUser db idStr body = (.serverError "Error updating user", db)) ∧
    (roleAllowed (applyUserUpdate u body).role = true →
     db.users.any (fun v => v.id ≠ u.id ∧ v.email = (applyUserUpdate u body).email) = true →
       updateUser db idStr body = (.serverError "Error updating user", db)) ∧
    (roleAllowed (applyUserUpdate u body).role = true →
     db.users.any (fun v => v.id ≠ u.id ∧ v.email = (applyUserUpdate u body).email) = false →
       updateUser db idStr body =
         (.ok "User updated successfully",
          { db with users := db.users.map (fun x =>
              if x.id = idStr then applyUserUpdate x body else x) })) ∧
    (∀ x : User, (applyUserUpdate x body).id = x.id) ∧
    (∀ x : User, ∀ r, body.role = some r → (applyUserUpdate x body).role = r) ∧
    (∀ x : User, ∀ em, body.email = some em → (applyUserUpdate x body).email = em) ∧
    (∀ x : User, ∀ ts, body.assigned_tasks = some ts →
       (applyUserUpdate x body).assigned_tasks = ts) := by
  have hufind : db.users.find? (fun v => v.id = idStr) = some u := by
    apply find?_eq_of_mem_of_unique hu (by simpa using hid)
    intro b hb hpb
    have hb' : b.id = idStr := of_decide_eq_true hpb
    exact eq_of_map_nodup_of_key_eq hnodup b hb u hu (by rw [hb', hid])
  have hupd := updateFirst_eq_map_of_nodup
    (f := fun x => applyUserUpdate x body) (b := idStr) hnodup
  refine ⟨?_, ?_, ?_, fun x => rfl, ?_, ?_, ?_⟩
  · intro hrole
    simp only [updateUser, hvalid, not_true_eq_false, if_false, hufind, hrole]
    simp
  · intro hrole hdup
    simp only [updateUser, hvalid, not_true_eq_false, if_false, hufind,
      hrole, hdup]
    simp
  · intro hrole hdup
    simp only [updateUser, hvalid, not_true_eq_false, if_false, hufind,
      hrole, hdup, hupd]
    simp
  · intro x r hr; simp [applyUserUpdate, hr]
  · intro x em hem; simp [applyUserUpdate, hem]
  · intro x ts hts; simp [applyUserUpdate, hts]

/-- C10 amended, witnessed: the "banana" role update answers 500 and
persists nothing, while a constraint-satisfying update that overwrites
the `assigned_tasks` mirror and attempts a `_id` change is persisted
verbatim with `_id` kept. -/
theorem C10_amended_witness :
    updateUser db2u uid0 ⟨none, none, none, some "banana", none, none, none⟩ =
      (.serverError "Error updating user", db2u) ∧
    updateUser db2u uid0
        ⟨none, none, none, none, some [tid0], none,
         some "zzzzzzzzzzzzzzzzzzzzzzzz"⟩ =
      (.ok "User updated successfully",
       { db2u with users := db2u.users.map (fun x =>
           if x.id = uid0 then
             applyUserUpdate x ⟨none, none, none, none, some [tid0], none,
               some "zzzzzzzzzzzzzzzzzzzzzzzz"⟩
           else x) }) ∧
    (applyUserUpdate annUser ⟨none, none, none, none, some [tid0], none,
        some "zzzzzzzzzzzzzzzzzzzzzzzz"⟩).id = annUser.id :=
  ⟨(C10_amended db2u uid0 ⟨none, none, none, some "banana", none, none, none⟩
      annUser (by decide) (by decide) (by decide) (by decide)).1 (by decide),
   (C10_amended db2u uid0 ⟨none, none, none, none, some [tid0], none,
        some "zzzzzzzzzzzzzzzzzzzzzzzz"⟩
      annUser (by decide) (by decide) (by decide) (by decide)).2.2.1
      (by decide) (by decide),
   (C10_amended db2u uid0 ⟨none, none, none, none, some [tid0], none,
        some "zzzzzzzzzzzzzzzzzzzzzzzz"⟩
      annUser (by decide) (by decide) (by decide) (by decide)).2.2.2.1 annUser⟩

/-! ## Claim C6 — task-creation defaults and enum validation -/

/-- C6: the defaults half of the claim holds (omitted status/priority
become "pending"/"medium"), but the rejection half does not: the
create-task handler wired to POST /api/tasks performs no enumeration
check, so a request with status "bogus" and priority "urgent" is
accepted with 201 and the task is inserted carrying those values
verbatim — contradicting both the claim and the endpoint's own
swagger schema (status enum [pending, in-progress, completed],
priority enum [low, medium, high], 400 on invalid input).  The
sibling controller version (`createTask_v2`) does reject an
out-of-enumeration status, but reads no priority field at all. -/
theorem C6_enum_not_validated :
    (createTask db0 ⟨some "Ship release", some "cut v1", none, none⟩ none
        "dddddddddddddddddddddddd" 3).1
      = .created
          { id := "dddddddddddddddddddddddd", title := "Ship release",
            description := "cut v1", status := "pending", priority := "medium",
            created_by := none, created_at := 3, assigned_users := [] } ∧
    (createTask db0 ⟨some "T", some "D", some "bogus", some "urgent"⟩ none
        "eeeeeeeeeeeeeeeeeeeeeeee" 3).1.status = 201 ∧
    ((createTask db0 ⟨some "T", some "D", some "bogus", some "urgent"⟩ none
        "eeeeeeeeeeeeeeeeeeeeeeee" 3).2.tasks.map (fun t => t.status))
      = ["pending", "bogus"] ∧
    ((createTask db0 ⟨some "T", some "D", some "bogus", some "urgent"⟩ none
        "eeeeeeeeeeeeeeeeeeeeeeee" 3).2.tasks.map (fun t => t.priority))
      = ["medium", "urgent"] ∧
    createTask_v2 (some "T") (some "D") (some "bogus") none = none := by
  decide

/-! ## Claim C4 — unassign on a pair with no assignment -/

/-- C4 counterexample: on a task/user pair with no assignment record
the code answers 404 with message "User is not assigned to this task"
(capital U) — not the message "user is not assigned to this task" the
claim quotes. -/
theorem C4_counterexample :
    removeUserFromTask db0 tid0 "ann@x.com" =
      (.notAssigned "User is not assigned to this task", db0) ∧
    (RemoveResult.notAssigned "User is not assigned to this task").status = 404 ∧
    "User is not assigned to this task" ≠ "user is not assigned to this task" := by
  decide

/-- C4 amended: for every existing task `tid` and email `e`, when no
registered user carries `e` the unassign answers 404 "User not found"
and deletes nothing; and when a registered user `u` carries `e` but no
assignment record for (tid, u) exists, the unassign deletes nothing
and answers 404 "User is not assigned to this task" (capital U —
otherwise as the claim states). -/
theorem C4_amended (db : DB) (tid e : String)
    (hvalid : isValidObjectId tid = true)
    (hT : ∃ T ∈ db.tasks, T.id = tid)
    (hnodup : (db.users.map (fun x => x.email)).Nodup) :
    ((∀ x ∈ db.users, x.email ≠ e) →
       removeUserFromTask db tid e = (.userNotFound "User not found", db)) ∧
    (∀ u, u ∈ db.users → u.email = e →
       (∀ a ∈ db.task_assignments, ¬ (a.task_id = tid ∧ a.user_id = u.id)) →
       removeUserFromTask db tid e =
         (.notAssigned "User is not assigned to this task", db) ∧
       (removeUserFromTask db tid e).1.status = 404) := by
  obtain ⟨T, hTmem, hTid⟩ := hT
  have hsome : (db.tasks.find? (fun t => t.id = tid)).isSome := by
    rw [List.find?_isSome]
    exact ⟨T, hTmem, by simpa using hTid⟩
  obtain ⟨T', hfind⟩ := Option.isSome_iff_exists.mp hsome
  constructor
  · intro hnouser
    have hnone : db.users.find? (fun x => x.email = e) = none := by
      rw [List.find?_eq_none]
      intro x hx
      simpa using hnouser x hx
    simp [removeUserFromTask, hvalid, hfind, hnone]
  · intro u hu hue hnoassign
    have hufind : db.users.find? (fun x => x.email = e) = some u := by
      apply find?_eq_of_mem_of_unique hu (by simpa using hue)
      intro b hb hpb
      have hb' : b.email = e := of_decide_eq_true hpb
      exact eq_of_map_nodup_of_key_eq hnodup b hb u hu (by rw [hb', hue])
    have hres : removeUserFromTask db tid e =
        (.notAssigned "User is not assigned to this task", db) := by
      simp only [removeUserFromTask, hvalid, not_true_eq_false, if_false,
        hfind, hufind]
      have hanyf : db.task_assignments.any
          (fun a => a.task_id = tid ∧ a.user_id = u.id) = false := by
        rw [Bool.eq_false_iff, Ne, List.any_eq_true]
        rintro ⟨a, ha, hpa⟩
        exact hnoassign a ha (of_decide_eq_true hpa)
      rw [hanyf]
      simp
    exact ⟨hres, by rw [hres]; rfl⟩

/-- C4 amended, witnessed: unknown email → "User not found";
registered but unassigned email → "User is not assigned to this
task". -/
theorem C4_amended_witness :
    removeUserFromTask db0 tid0 "ghost@x.com" =
      (.userNotFound "User not found", db0) ∧
    removeUserFromTask db0 tid0 "ann@x.com" =
      (.notAssigned "User is not assigned to this task", db0) :=
  ⟨(C4_amended db0 tid0 "ghost@x.com" (by decide)
      ⟨shipTask, by decide, by decide⟩ (by decide)).1 (by decide),
   ((C4_amended db0 tid0 "ann@x.com" (by decide)
      ⟨shipTask, by decide, by decide⟩ (by decide)).2 annUser
      (by decide) (by decide) (by simp [db0])).1⟩

/-! ## Claim C5 — frame of a successful unassign -/

/-- C5: a successful unassign deletes exactly one record from the
`task_assignments` collection (the new collection is a sublist of the
old with length one less) and modifies nothing else: the `users` and
`tasks` collections — and with them the embedded `assigned_tasks` /
`assigned_users` mirrors — are returned unchanged. -/
theorem C5_unassign_frame (db : DB) (tid e : String) (u : User)
    (hvalid : isValidObjectId tid = true)
    (hT : ∃ T ∈ db.tasks, T.id = tid)
    (hu : u ∈ db.users) (hue : u.email = e)
    (hnodup : (db.users.map (fun x => x.email)).Nodup)
    (hex : ∃ a ∈ db.task_assignments, a.task_id = tid ∧ a.user_id = u.id) :
    (removeUserFromTask db tid e).1 =
      .ok "User removed from task successfully" tid e ∧
    (removeUserFromTask db tid e).2.users = db.users ∧
    (removeUserFromTask db tid e).2.tasks = db.tasks ∧
    (removeUserFromTask db tid e).2.task_assignments.length + 1 =
      db.task_assignments.length ∧
    (removeUserFromTask db tid e).2.task_assignments.Sublist
      db.task_assignments := by
  obtain ⟨T, hTmem, hTid⟩ := hT
  have hsome : (db.tasks.find? (fun t => t.id = tid)).isSome := by
    rw [List.find?_isSome]
    exact ⟨T, hTmem, by simpa using hTid⟩
  obtain ⟨T', hfind⟩ := Option.isSome_iff_exists.mp hsome
  have hufind : db.users.find? (fun x => x.email = e) = some u := by
    apply find?_eq_of_mem_of_unique hu (by simpa using hue)
    intro b hb hpb
    have hb' : b.email = e := of_decide_eq_true hpb
    exact eq_of_map_nodup_of_key_eq hnodup b hb u hu (by rw [hb', hue])
  obtain ⟨a, ha, hpa⟩ := hex
  have hany : db.task_assignments.any
      (fun x => x.task_id = tid ∧ x.user_id = u.id) = true := by
    rw [List.any_eq_true]
    exact ⟨a, ha, by simpa using hpa⟩
  have hres : removeUserFromTask db tid e =
      (.ok "User removed from task successfully" tid e,
       { db with task_assignments := db.task_assignments.eraseP (fun x => x.task_id = tid ∧ x.user_id = u.id) }) := by
    simp only [removeUserFromTask, hvalid, not_true_eq_false, if_false,
      hfind, hufind]
    rw [hany]
    simp
  rw [hres]
  refine ⟨rfl, rfl, rfl, ?_, List.eraseP_sublist _⟩
  exact List.length_eraseP_add_one ha (by simpa using hpa)

/-- C5 witnessed on `dbAssigned`: unassigning Ann removes the one
join record and leaves both embedded mirrors untouched. -/
theorem C5_unassign_frame_witness :
    (removeUserFromTask dbAssigned tid0 "ann@x.com").1 =
      .ok "User removed from task successfully" tid0 "ann@x.com" ∧
    (removeUserFromTask dbAssigned tid0 "ann@x.com").2.users =
      dbAssigned.users ∧
    (removeUserFromTask dbAssigned tid0 "ann@x.com").2.tasks =
      dbAssigned.tasks ∧
    (removeUserFromTask dbAssigned tid0 "ann@x.com").2.task_assignments.length
      + 1 = dbAssigned.task_assignments.length ∧
    (removeUserFromTask dbAssigned tid0 "ann@x.com").2.task_assignments.Sublist
      dbAssigned.task_assignments :=
  C5_unassign_frame dbAssigned tid0 "ann@x.com"
    { annUser with assigned_tasks := [tid0] } (by decide)
    ⟨{ shipTask with assigned_users := [uid0] }, by decide, by decide⟩
    (by decide) (by decide) (by decide) ⟨rec0, by decide, by decide⟩

/-! ## Evaluation lemma for the users-not-found branch of assign -/

/-- When the bulk email lookup resolves a different number of users
than requested, `assignUserToTask` answers 400 "One or more users not
found" with the matched emails in `foundUsers` and the unmatched
request emails in `missingUsers`, and writes nothing. -/
theorem assign_usersNotFound_spec (db : DB) (tid : String)
    (emails : List String) (n : Nat) (T' : Task)
    (hvalid : isValidObjectId tid = true)
    (hfind : db.tasks.find? (fun t => t.id = tid) = some T')
    (hempty : emails.isEmpty = false)
    (hlen : (db.users.filter (fun u => emails.any (fun e => u.email = e))).length
      ≠ emails.length) :
    assignUserToTask db tid (some emails) n =
      (.usersNotFound "One or more users not found"
        ((db.users.filter (fun u => emails.any (fun e => u.email = e))).map
          (fun u => u.email))
        (emails.filter (fun e =>
          ¬ (db.users.filter (fun u => emails.any (fun y => u.email = y))).any
              (fun u => u.email = e))), db) := by
  simp only [assignUserToTask, hvalid, not_true_eq_false, if_false, hempty,
    Bool.false_eq_true, hfind]
  rw [if_pos hlen]

/-! ## Claim C2 — assign is all-or-nothing on user resolution -/

/-- C2: for an existing task and a non-empty email list containing at
least one email `e0` that resolves to no registered user, assign
answers a 400 "One or more users not found" response whose
`missingUsers` are exactly the request emails with no registered
user (so it contains `e0`) and whose `foundUsers` are exactly the
request emails some registered user carries — and it writes nothing:
the database is returned unchanged. -/
theorem C2_all_or_nothing (db : DB) (tid e0 : String)
    (emails : List String) (n : Nat)
    (hvalid : isValidObjectId tid = true)
    (hT : ∃ T ∈ db.tasks, T.id = tid)
    (hne : emails ≠ [])
    (he0 : e0 ∈ emails)
    (hmissing : ∀ x ∈ db.users, x.email ≠ e0)
    (hnodup : (db.users.map (fun x => x.email)).Nodup) :
    (assignUserToTask db tid (some emails) n).2 = db ∧
    (assignUserToTask db tid (some emails) n).1.status = 400 ∧
    ∃ found missing,
      (assignUserToTask db tid (some emails) n).1 =
        .usersNotFound "One or more users not found" found missing ∧
      e0 ∈ missing ∧
      (∀ m, m ∈ missing ↔ m ∈ emails ∧ ∀ x ∈ db.users, x.email ≠ m) ∧
      (∀ f, f ∈ found ↔ f ∈ emails ∧ ∃ x ∈ db.users, x.email = f) := by
  obtain ⟨T, hTmem, hTid⟩ := hT
  have hsome : (db.tasks.find? (fun t => t.id = tid)).isSome := by
    rw [List.find?_isSome]
    exact ⟨T, hTmem, by simpa using hTid⟩
  obtain ⟨T', hfind⟩ := Option.isSome_iff_exists.mp hsome
  have hempty : emails.isEmpty = false := by
    cases emails with
    | nil => exact absurd rfl hne
    | cons a l => rfl
  have hFnodup :
      ((db.users.filter (fun u => emails.any (fun e => u.email = e))).map
        (fun x => x.email)).Nodup :=
    List.Nodup.sublist ((List.filter_sublist _).map _) hnodup
  have hlen : (db.users.filter
      (fun u => emails.any (fun e => u.email = e))).length ≠ emails.length := by
    apply Nat.ne_of_lt
    have hsubset :
        ((db.users.filter (fun u => emails.any (fun e => u.email = e))).map
          (fun x => x.email)).toFinset ⊆ emails.toFinset.erase e0 := by
      intro m hm
      rw [List.mem_toFinset, List.mem_map] at hm
      obtain ⟨u, huF, hum⟩ := hm
      rw [List.mem_filter] at huF
      obtain ⟨hu, hpu⟩ := huF
      rw [List.any_eq_true] at hpu
      obtain ⟨e, he, hue⟩ := hpu
      have hue' : u.email = e := of_decide_eq_true hue
      rw [Finset.mem_erase]
      refine ⟨?_, ?_⟩
      · rw [← hum]
        exact hmissing u hu
      · rw [List.mem_toFinset, ← hum, hue']
        exact he
    calc (db.users.filter (fun u => emails.any (fun e => u.email = e))).length
        = ((db.users.filter (fun u => emails.any (fun e => u.email = e))).map
            (fun x => x.email)).length := by rw [List.length_map]
      _ = ((db.users.filter (fun u => emails.any (fun e => u.email = e))).map
            (fun x => x.email)).toFinset.card :=
          (List.toFinset_card_of_nodup hFnodup).symm
      _ ≤ (emails.toFinset.erase e0).card := Finset.card_le_card hsubset
      _ < emails.toFinset.card :=
          Finset.card_erase_lt_of_mem (List.mem_toFinset.mpr he0)
      _ ≤ emails.length := emails.toFinset_card_le
  have hres := assign_usersNotFound_spec db tid emails n T' hvalid hfind
    hempty hlen
  rw [hres]
  refine ⟨rfl, rfl, _, _, rfl, ?_, ?_, ?_⟩
  · rw [List.mem_filter]
    refine ⟨he0, ?_⟩
    simp only [Bool.not_eq_true', decide_eq_false_iff_not, List.any_eq_true,
      decide_eq_true_eq]
    rintro ⟨u, huF, hue⟩
    rw [List.mem_filter] at huF
    exact hmissing u huF.1 hue
  · intro m
    rw [List.mem_filter]
    simp only [Bool.not_eq_true', decide_eq_false_iff_not, List.any_eq_true,
      decide_eq_true_eq]
    constructor
    · rintro ⟨hm, hnone⟩
      refine ⟨hm, fun x hx hxm => hnone ?_⟩
      refine ⟨x, ?_, hxm⟩
      rw [List.mem_filter]
      refine ⟨hx, ?_⟩
      rw [List.any_eq_true]
      exact ⟨m, hm, by simpa using hxm⟩
    · rintro ⟨hm, hall⟩
      refine ⟨hm, ?_⟩
      rintro ⟨x, hxF, hxm⟩
      rw [List.mem_filter] at hxF
      exact hall x hxF.1 hxm
  · intro f
    simp only [List.mem_map, List.mem_filter, List.any_eq_true,
      decide_eq_true_eq]
    constructor
    · rintro ⟨u, ⟨hu, e, he, hue⟩, huf⟩
      exact ⟨by rw [← huf, hue]; exact he, u, hu, huf⟩
    · rintro ⟨hf, u, hu, huf⟩
      exact ⟨u, ⟨hu, f, hf, huf⟩, huf⟩

/-- C2 witnessed: assigning ["ann@x.com", "bob@x.com"] on `db0`
(where only Ann is registered) answers the 400 response reporting
"bob@x.com" missing and writes nothing. -/
theorem C2_all_or_nothing_witness :
    (assignUserToTask db0 tid0 (some ["ann@x.com", "bob@x.com"]) 5).2 = db0 ∧
    (assignUserToTask db0 tid0 (some ["ann@x.com", "bob@x.com"]) 5).1.status
      = 400 ∧
    "bob@x.com" ∈ (["ann@x.com", "bob@x.com"].filter (fun e =>
      ¬ (db0.users.filter (fun u =>
          ["ann@x.com", "bob@x.com"].any (fun y => u.email = y))).any
        (fun u => u.email = e))) := by
  have h := C2_all_or_nothing db0 tid0 "bob@x.com" ["ann@x.com", "bob@x.com"]
    5 (by decide) ⟨shipTask, by decide, by decide⟩ (by decide) (by decide)
    (by decide) (by decide)
  exact ⟨h.1, h.2.1, by decide⟩

/-! ## Claim C9 — duplicated emails in the assign request -/

/-- C9: when every email in the request list is registered but the
list names some registered email more than once, the bulk lookup
returns one user per distinct email, so the resolved count is below
the raw request length and assign answers the 400 "One or more users
not found" response — with an empty `missingUsers` list, since every
request email does have a matching user — and performs no writes. -/
theorem C9_duplicate_request_emails (db : DB) (tid : String)
    (emails : List String) (n : Nat)
    (hvalid : isValidObjectId tid = true)
    (hT : ∃ T ∈ db.tasks, T.id = tid)
    (hnodup : (db.users.map (fun x => x.email)).Nodup)
    (hall : ∀ e ∈ emails, ∃ x ∈ db.users, x.email = e)
    (hdup : ¬ emails.Nodup) :
    (assignUserToTask db tid (some emails) n).2 = db ∧
    (assignUserToTask db tid (some emails) n).1.status = 400 ∧
    ∃ found, (assignUserToTask db tid (some emails) n).1 =
      .usersNotFound "One or more users not found" found [] := by
  obtain ⟨T, hTmem, hTid⟩ := hT
  have hsome : (db.tasks.find? (fun t => t.id = tid)).isSome := by
    rw [List.find?_isSome]
    exact ⟨T, hTmem, by simpa using hTid⟩
  obtain ⟨T', hfind⟩ := Option.isSome_iff_exists.mp hsome
  have hempty : emails.isEmpty = false := by
    cases emails with
    | nil => exact absurd List.nodup_nil hdup
    | cons a l => rfl
  have hFnodup :
      ((db.users.filter (fun u => emails.any (fun e => u.email = e))).map
        (fun x => x.email)).Nodup :=
    List.Nodup.sublist ((List.filter_sublist _).map _) hnodup
  have hsetEq :
      ((db.users.filter (fun u => emails.any (fun e => u.email = e))).map
        (fun x => x.email)).toFinset = emails.toFinset := by
    ext m
    rw [List.mem_toFinset, List.mem_toFinset, List.mem_map]
    constructor
    · rintro ⟨u, huF, hum⟩
      rw [List.mem_filter] at huF
      rw [List.any_eq_true] at huF
      obtain ⟨_, e, he, hue⟩ := huF
      have hue' : u.email = e := of_decide_eq_true hue
      rw [← hum, hue']
      exact he
    · intro hm
      obtain ⟨u, hu, hum⟩ := hall m hm
      refine ⟨u, ?_, hum⟩
      rw [List.mem_filter]
      refine ⟨hu, ?_⟩
      rw [List.any_eq_true]
      exact ⟨m, hm, by simpa using hum⟩
  have hlen : (db.users.filter
      (fun u => emails.any (fun e => u.email = e))).length ≠ emails.length := by
    apply Nat.ne_of_lt
    calc (db.users.filter (fun u => emails.any (fun e => u.email = e))).length
        = ((db.users.filter (fun u => emails.any (fun e => u.email = e))).map
            (fun x => x.email)).length := by rw [List.length_map]
      _ = ((db.users.filter (fun u => emails.any (fun e => u.email = e))).map
            (fun x => x.email)).toFinset.card :=
          (List.toFinset_card_of_nodup hFnodup).symm
      _ = emails.toFinset.card := by rw [hsetEq]
      _ < emails.length := toFinset_card_lt_of_not_nodup hdup
  have hres := assign_usersNotFound_spec db tid emails n T' hvalid hfind
    hempty hlen
  have hmissingNil : (emails.filter (fun e =>
      ¬ (db.users.filter (fun u => emails.any (fun y => u.email = y))).any
          (fun u => u.email = e))) = [] := by
    rw [List.filter_eq_nil_iff]
    intro e he
    simp only [Bool.not_eq_true', decide_eq_false_iff_not, List.any_eq_true,
      decide_eq_true_eq, not_not]
    obtain ⟨u, hu, hue⟩ := hall e he
    refine ⟨u, ?_, hue⟩
    rw [List.mem_filter]
    refine ⟨hu, ?_⟩
    rw [List.any_eq_true]
    exact ⟨e, he, by simpa using hue⟩
  rw [hres, hmissingNil]
  exact ⟨rfl, rfl, _, rfl⟩

/-- C9 witnessed: assigning ["ann@x.com", "ann@x.com"] on `db0`
answers 400 with foundUsers = ["ann@x.com"] and missingUsers = [],
writing nothing. -/
theorem C9_duplicate_request_emails_witness :
    (assignUserToTask db0 tid0 (some ["ann@x.com", "ann@x.com"]) 5).2 = db0 ∧
    (assignUserToTask db0 tid0 (some ["ann@x.com", "ann@x.com"]) 5).1.status
      = 400 ∧
    ∃ found, (assignUserToTask db0 tid0 (some ["ann@x.com", "ann@x.com"]) 5).1
      = .usersNotFound "One or more users not found" found [] :=
  C9_duplicate_request_emails db0 tid0 ["ann@x.com", "ann@x.com"] 5
    (by decide) ⟨shipTask, by decide, by decide⟩ (by decide)
    (by intro e he
        refine ⟨annUser, by decide, ?_⟩
        rcases List.mem_cons.mp he with rfl | he'
        · rfl
        · rcases List.mem_cons.mp he' with rfl | he''
          · rfl
          · cases he'')
    (by decide)

/-! ## Claim C1 — assign is not idempotent per (task, user) pair -/

theorem addToSetEach_single_not_mem {base : List String} {x : String}
    (h : x ∉ base) : addToSetEach base [x] = base ++ [x] := by
  simp [addToSetEach, h]

theorem addToSetEach_single_mem {base : List String} {x : String}
    (h : x ∈ base) : addToSetEach base [x] = base := by
  simp [addToSetEach, h]
/-- C1 counterexample: assigning Ann to the ship task twice in
sequence does NOT make the second call succeed — the controller never
checks for the existing (task, user) record, the second `insertMany`
hits the unique (task_id, user_id) index installed by the persistence
gateway, and the uncaught E11000 becomes a 500 "Error assigning users
to task".  Exactly one assignment record remains for the pair (the
conflicting insert commits nothing). -/
theorem C1_counterexample :
    (assignUserToTask (assignUserToTask db0 tid0 (some ["ann@x.com"]) 5).2
        tid0 (some ["ann@x.com"]) 7).1.status = 500 ∧
    (500 : Nat) ≠ 200 ∧
    (assignUserToTask (assignUserToTask db0 tid0 (some ["ann@x.com"]) 5).2
        tid0 (some ["ann@x.com"]) 7).1 =
      .serverError "Error assigning users to task" ∧
    ((assignUserToTask (assignUserToTask db0 tid0 (some ["ann@x.com"]) 5).2
        tid0 (some ["ann@x.com"]) 7).2.task_assignments.filter
      (fun a => a.task_id = tid0 ∧ a.user_id = uid0)).length = 1 := by
  decide

/-- C1 amended: for an existing task and a registered email whose
pair starts with no assignment record (and with the user id not yet
mirrored in the task), the first assign succeeds and the second one
FAILS: its unconditional `insertMany` conflicts with the unique
(task_id, user_id) index and the E11000 is not caught as idempotent
success but answers 500 "Error assigning users to task".  The
database is left exactly as the first call left it, so exactly one
assignment record exists for the pair and the user's id appears
exactly once in the task's embedded `assigned_users` set. -/
theorem C1_amended (db : DB) (tid e : String) (u : User) (n1 n2 : Nat)
    (hvalid : isValidObjectId tid = true)
    (hT : ∃ T ∈ db.tasks, T.id = tid)
    (hu : u ∈ db.users) (hue : u.email = e)
    (hnodup : (db.users.map (fun x => x.email)).Nodup)
    (htasks : (db.tasks.map (fun t => t.id)).Nodup)
    (hprior : ∀ a ∈ db.task_assignments, ¬ (a.task_id = tid ∧ a.user_id = u.id))
    (hclean : ∀ T ∈ db.tasks, T.id = tid → u.id ∉ T.assigned_users) :
    (assignUserToTask (assignUserToTask db tid (some [e]) n1).2
        tid (some [e]) n2).1
      = .serverError "Error assigning users to task" ∧
    (assignUserToTask (assignUserToTask db tid (some [e]) n1).2
        tid (some [e]) n2).1.status = 500 ∧
    (assignUserToTask (assignUserToTask db tid (some [e]) n1).2
        tid (some [e]) n2).2
      = (assignUserToTask db tid (some [e]) n1).2 ∧
    ((assignUserToTask (assignUserToTask db tid (some [e]) n1).2
        tid (some [e]) n2).2.task_assignments.filter
      (fun a => a.task_id = tid ∧ a.user_id = u.id)).length = 1 ∧
    (∀ T' ∈ (assignUserToTask (assignUserToTask db tid (some [e]) n1).2
        tid (some [e]) n2).2.tasks,
      T'.id = tid → T'.assigned_users.count u.id = 1) := by
  obtain ⟨T, hTmem, hTid⟩ := hT
  have h1 := assign_single_spec db tid e u n1 hvalid ⟨T, hTmem, hTid⟩ hu hue
    hnodup htasks hprior
  have hu1 : ({ u with assigned_tasks := addToSetEach u.assigned_tasks [tid] } : User)
      ∈ db.users.map (fun x => if x.id = u.id then { x with assigned_tasks := addToSetEach x.assigned_tasks [tid] } else x) := by
    refine List.mem_map.mpr ⟨u, hu, ?_⟩
    rw [if_pos rfl]
  have hT1 : ∃ T' ∈ db.tasks.map (fun t => if t.id = tid then { t with assigned_users := addToSetEach t.assigned_users [u.id] } else t), T'.id = tid := by
    refine ⟨_, List.mem_map.mpr ⟨T, hTmem, rfl⟩, ?_⟩
    by_cases h : T.id = tid <;> simp [h, hTid]
  have hmapU : (db.users.map (fun x => if x.id = u.id then { x with assigned_tasks := addToSetEach x.assigned_tasks [tid] } else x)).map (fun x => x.email)
      = db.users.map (fun x => x.email) := by
    rw [List.map_map]
    apply List.map_congr_left
    intro x _
    by_cases hx : x.id = u.id <;> simp [hx]
  have hconf : ∃ a ∈ db.task_assignments ++ [(⟨tid, u.id, n1⟩ : Assignment)],
      a.task_id = tid ∧ a.user_id
        = ({ u with assigned_tasks := addToSetEach u.assigned_tasks [tid] } : User).id :=
    ⟨⟨tid, u.id, n1⟩,
     List.mem_append_right _ (List.mem_singleton_self _), rfl, rfl⟩
  have h2 := assign_single_conflict_spec
    { users := db.users.map (fun x => if x.id = u.id then { x with assigned_tasks := addToSetEach x.assigned_tasks [tid] } else x),
      tasks := db.tasks.map (fun t => if t.id = tid then { t with assigned_users := addToSetEach t.assigned_users [u.id] } else t),
      task_assignments := db.task_assignments ++ [⟨tid, u.id, n1⟩] }
    tid e ({ u with assigned_tasks := addToSetEach u.assigned_tasks [tid] }) n2
    hvalid hT1 hu1 hue (by rw [hmapU]; exact hnodup) hconf
  have hfilterOld : db.task_assignments.filter
      (fun a => a.task_id = tid ∧ a.user_id = u.id) = [] := by
    rw [List.filter_eq_nil_iff]
    intro a ha
    simpa using hprior a ha
  simp only [h1]
  simp only [h2]
  refine ⟨by trivial, by trivial, by trivial, ?_, ?_⟩
  · show ((db.task_assignments ++ [(⟨tid, u.id, n1⟩ : Assignment)]).filter
      (fun a => a.task_id = tid ∧ a.user_id = u.id)).length = 1
    rw [List.filter_append, hfilterOld]
    simp
  · intro T'' hT'' hid
    obtain ⟨x, hx, hxe⟩ := List.mem_map.mp hT''
    have hxid : x.id = tid := by
      rw [← hid, ← hxe]
      by_cases h : x.id = tid <;> simp [h]
    have hnotmem := hclean x hx hxid
    have hcalc : T''.assigned_users = x.assigned_users ++ [u.id] := by
      rw [← hxe]
      simp [hxid, addToSetEach_single_not_mem hnotmem]
    rw [hcalc, List.count_append, List.count_eq_zero.mpr hnotmem]
    simp

/-- C1 amended, witnessed concretely: assigning Ann twice on `db0`
makes the second call answer 500, leaves one join record for the pair
and a single occurrence of her id in the task's embedded set. -/
theorem C1_amended_witness :
    (assignUserToTask (assignUserToTask db0 tid0 (some ["ann@x.com"]) 5).2
        tid0 (some ["ann@x.com"]) 7).1
      = .serverError "Error assigning users to task" ∧
    (assignUserToTask (assignUserToTask db0 tid0 (some ["ann@x.com"]) 5).2
        tid0 (some ["ann@x.com"]) 7).1.status = 500 ∧
    (assignUserToTask (assignUserToTask db0 tid0 (some ["ann@x.com"]) 5).2
        tid0 (some ["ann@x.com"]) 7).2
      = (assignUserToTask db0 tid0 (some ["ann@x.com"]) 5).2 ∧
    ((assignUserToTask (assignUserToTask db0 tid0 (some ["ann@x.com"]) 5).2
        tid0 (some ["ann@x.com"]) 7).2.task_assignments.filter
      (fun a => a.task_id = tid0 ∧ a.user_id = annUser.id)).length = 1 ∧
    (∀ T' ∈ (assignUserToTask (assignUserToTask db0 tid0 (some ["ann@x.com"]) 5).2
        tid0 (some ["ann@x.com"]) 7).2.tasks,
      T'.id = tid0 → T'.assigned_users.count annUser.id = 1) :=
  C1_amended db0 tid0 "ann@x.com" annUser 5 7 (by decide)
    ⟨shipTask, by decide, by decide⟩ (by decide) (by decide) (by decide)
    (by decide) (by decide) (by decide)

/-! ## Claim C3 — round-trip of assign then getAssignees -/

/-- C3: on a task with no prior assignments, after a successful
assign of one registered email the assignees query returns exactly one
entry — whose email is the assigned email and whose `assigned_at` is
the assign-time clock value, hence no later than the (later) query
time — together with `assigneeCount = 1`. -/
theorem C3_roundtrip (db : DB) (tid e : String) (u : User) (n now2 : Nat)
    (hvalid : isValidObjectId tid = true)
    (hT : ∃ T ∈ db.tasks, T.id = tid)
    (hu : u ∈ db.users) (hue : u.email = e)
    (hnodup : (db.users.map (fun x => x.email)).Nodup)
    (huid : (db.users.map (fun x => x.id)).Nodup)
    (htasks : (db.tasks.map (fun t => t.id)).Nodup)
    (hprior : ∀ a ∈ db.task_assignments, a.task_id ≠ tid)
    (hn : n ≤ now2) :
    ∃ title entry,
      getTaskAssignees (assignUserToTask db tid (some [e]) n).2 tid =
        .ok tid title 1 [entry] ∧
      entry.email = e ∧ entry.assigned_at = n ∧ entry.assigned_at ≤ now2 := by
  obtain ⟨T, hTmem, hTid⟩ := hT
  have h1 := assign_single_spec db tid e u n hvalid ⟨T, hTmem, hTid⟩ hu hue
    hnodup htasks (fun a ha hpa => hprior a ha hpa.1)
  have hT1mem : (if T.id = tid then { T with assigned_users := addToSetEach T.assigned_users [u.id] } else T)
      ∈ db.tasks.map (fun t => if t.id = tid then { t with assigned_users := addToSetEach t.assigned_users [u.id] } else t) :=
    List.mem_map.mpr ⟨T, hTmem, rfl⟩
  have hsomeT : ((db.tasks.map (fun t => if t.id = tid then { t with assigned_users := addToSetEach t.assigned_users [u.id] } else t)).find?
      (fun t => t.id = tid)).isSome := by
    rw [List.find?_isSome]
    refine ⟨_, hT1mem, ?_⟩
    by_cases h : T.id = tid <;> simp [h, hTid]
  obtain ⟨Tf, hfindT⟩ := Option.isSome_iff_exists.mp hsomeT
  have hufind : (db.users.map (fun x => if x.id = u.id then { x with assigned_tasks := addToSetEach x.assigned_tasks [tid] } else x)).find?
      (fun x => x.id = u.id)
      = some ({ u with assigned_tasks := addToSetEach u.assigned_tasks [tid] }) := by
    apply find?_eq_of_mem_of_unique
    · exact List.mem_map.mpr ⟨u, hu, by rw [if_pos rfl]⟩
    · simp
    · intro b hb hpb
      obtain ⟨x, hx, hxe⟩ := List.mem_map.mp hb
      have hbid : b.id = u.id := of_decide_eq_true hpb
      have hxid : x.id = u.id := by
        rw [← hbid, ← hxe]
        by_cases h : x.id = u.id <;> simp [h]
      have hxu : x = u := eq_of_map_nodup_of_key_eq huid x hx u hu hxid
      rw [← hxe, hxu, if_pos rfl]
  have hfilterOld : db.task_assignments.filter (fun a => a.task_id = tid) = [] := by
    rw [List.filter_eq_nil_iff]
    intro a ha
    simpa using hprior a ha
  refine ⟨Tf.title, ⟨u.id, u.name, e, n⟩, ?_, rfl, rfl, hn⟩
  simp only [h1]
  simp only [getTaskAssignees, hvalid, not_true_eq_false, if_false, hfindT]
  rw [List.filter_append, hfilterOld, List.nil_append]
  have hrecfilter : List.filter (fun a : Assignment => a.task_id = tid)
      [(⟨tid, u.id, n⟩ : Assignment)] = [⟨tid, u.id, n⟩] := by simp
  rw [hrecfilter]
  simp only [List.filterMap_cons, List.filterMap_nil]
  dsimp only
  rw [hufind]
  simp [hue]

/-- C3 witnessed: assign then query on `db0` returns one entry for
Ann stamped at the assign time. -/
theorem C3_roundtrip_witness :
    ∃ title entry,
      getTaskAssignees (assignUserToTask db0 tid0 (some ["ann@x.com"]) 5).2 tid0 =
        .ok tid0 title 1 [entry] ∧
      entry.email = "ann@x.com" ∧ entry.assigned_at = 5 ∧
      entry.assigned_at ≤ 9 :=
  C3_roundtrip db0 tid0 "ann@x.com" annUser 5 9 (by decide)
    ⟨shipTask, by decide, by decide⟩ (by decide) (by decide) (by decide)
    (by decide) (by decide) (by decide) (by decide)

end TaskAPI
